import Mathlib

/-!
Verification development for the IDF Mobilite stop monitoring pipeline.
Shallow embedding of src/utils/data_retriever.py, src/config/stop_monitoring.py
and src/config/config_validator.py, followed by theorems about the embedded
definitions. Machine integers are modelled as Nat/Int, Python exceptions as
Except, and pandas DataFrames as a column list plus aligned rows.
-/

namespace StopMonitoring

/-- Json values: the shape of raw API responses and of cells handled by the
pipeline. Python NaN cells are modelled as null; numbers are modelled as Int
(the pipeline never does float arithmetic on cell values). -/
inductive Json where
  | null
  | bool (b : Bool)
  | num (n : Int)
  | str (s : String)
  | obj (fields : List (String × Json))
  | arr (elems : List Json)

/-- Character constant for the opening curly brace. -/
def lbraceChar : Char := Char.ofNat 123

/-- Character constant for the closing curly brace. -/
def rbraceChar : Char := Char.ofNat 125

/-- Character constant for the single quote used by Python repr. -/
def aposChar : Char := Char.ofNat 39

/-- Generic concatenation of a list of lists (avoids library name drift). -/
def listJoin {α : Type} : List (List α) → List α
  | [] => []
  | l :: ls => l ++ listJoin ls

/-- Join strings with a separator, as str.join does in Python. -/
def joinWith (sep : String) : List String → String
  | [] => ""
  | [x] => x
  | x :: xs => x ++ sep ++ joinWith sep xs

/-- Lookup in an association list with string keys, as a Python dict lookup. -/
def lookupField (fs : List (String × Json)) (key : String) : Option Json :=
  (fs.find? (fun p => p.1 == key)).map (fun p => p.2)

/-- Python truthiness of a json value ([] and empty dict and empty string and 0
are falsy). -/
def jsonTruthy : Json → Bool
  | .null => false
  | .bool b => b
  | .num n => n != 0
  | .str s => s != ""
  | .obj fs => !fs.isEmpty
  | .arr xs => !xs.isEmpty

/-- Python value.get(key, default). Raises AttributeError when the receiver is
not a dict, which is what response.get does in the source on a non-dict. -/
def dictGet (v : Json) (key : String) (dflt : Json) : Except String Json :=
  match v with
  | .obj fs => .ok ((lookupField fs key).getD dflt)
  | _ => .error "AttributeError"

/-- Python iteration over a value: lists yield elements, dicts yield keys,
strings yield characters, and non-iterables raise TypeError. -/
def pyIter : Json → Except String (List Json)
  | .arr xs => .ok xs
  | .obj fs => .ok (fs.map (fun p => Json.str p.1))
  | .str s => .ok (s.data.map (fun c => Json.str (String.mk [c])))
  | _ => .error "TypeError"

mutual

/-- Python str() of a json cell, as pandas astype(str) renders it. NaN cells
render as nan; containers render with repr of their elements. -/
def pyStr : Json → String
  | .null => "nan"
  | .bool b => if b then "True" else "False"
  | .num n => toString n
  | .str s => s
  | .obj fs => String.mk [lbraceChar] ++ pyReprPairs fs ++ String.mk [rbraceChar]
  | .arr xs => "[" ++ pyReprElems xs ++ "]"

/-- Python repr() of a json value: like pyStr but strings are quoted. -/
def pyRepr : Json → String
  | .null => "nan"
  | .bool b => if b then "True" else "False"
  | .num n => toString n
  | .str s => String.mk [aposChar] ++ s ++ String.mk [aposChar]
  | .obj fs => String.mk [lbraceChar] ++ pyReprPairs fs ++ String.mk [rbraceChar]
  | .arr xs => "[" ++ pyReprElems xs ++ "]"

/-- Comma-joined repr of dict entries. -/
def pyReprPairs : List (String × Json) → String
  | [] => ""
  | [(k, v)] => String.mk [aposChar] ++ k ++ String.mk [aposChar] ++ ": " ++ pyRepr v
  | (k, v) :: rest =>
    String.mk [aposChar] ++ k ++ String.mk [aposChar] ++ ": " ++ pyRepr v ++ ", " ++
      pyReprPairs rest

/-- Comma-joined repr of list elements. -/
def pyReprElems : List Json → String
  | [] => ""
  | [v] => pyRepr v
  | v :: rest => pyRepr v ++ ", " ++ pyReprElems rest

end

/-- Characters stripped by Python str.strip() with no argument (whitespace;
modelled by Char.isWhitespace). -/
def trimChars (l : List Char) : List Char :=
  ((l.dropWhile Char.isWhitespace).reverse.dropWhile Char.isWhitespace).reverse

/-- Python str.strip(). -/
def pyStrip (s : String) : String := String.mk (trimChars s.data)

/-- Lowercase a string character by character, as str.lower() does on the
(ASCII) column names of this pipeline. -/
def strLower (s : String) : String := String.mk (s.data.map Char.toLower)

/-- Python str.startswith(p): the character list of p is a prefix of the
character list of s. Comparison is case-sensitive. -/
def pyStartswith (s p : String) : Bool := p.data.isPrefixOf s.data

/-- Splitting on a single separator character, accumulator-based; mirrors
Python str.split(sep), which always returns at least one piece. -/
def splitCharAux (sep : Char) : List Char → List Char → List (List Char)
  | acc, [] => [acc.reverse]
  | acc, c :: cs =>
    if c = sep then acc.reverse :: splitCharAux sep [] cs
    else splitCharAux sep (c :: acc) cs

/-- Python s.split(",") for the comma-separated town list. -/
def pySplitComma (s : String) : List String :=
  (splitCharAux ',' [] s.data).map String.mk

/-- Regex sub for the anchors in strip_brackets: one leading [ and one
trailing ] are removed when present. -/
def stripBracketsStr (s : String) : String :=
  let d1 := if s.data.head? == some '[' then s.data.drop 1 else s.data
  let d2 := if d1.getLast? == some ']' then d1.dropLast else d1
  String.mk d2

/-- Word characters for the regex word boundary in the nan removal. -/
def isWordChar (c : Char) : Bool := c.isAlphanum || c == '_'

/-- Drops an accumulated word when it is exactly nan, mirroring the regex
bnanb substitution with the empty string. -/
def flushWord (w : List Char) : List Char := if w == ['n', 'a', 'n'] then [] else w

/-- State machine removing every standalone word nan from a character list
(cur holds the current word reversed). -/
def dropNanAux : List Char → List Char → List Char
  | cur, [] => flushWord cur.reverse
  | cur, c :: cs =>
    if isWordChar c then dropNanAux (c :: cur) cs
    else flushWord cur.reverse ++ c :: dropNanAux [] cs

/-- Regex sub removing every standalone word nan from a string. -/
def removeNanWords (s : String) : String := String.mk (dropNanAux [] s.data)

/-- Splits a character list at the first occurrence of sep, if any. -/
def splitFirst (sep : Char) : List Char → Option (List Char × List Char)
  | [] => none
  | c :: cs =>
    if c = sep then some ([], cs)
    else (splitFirst sep cs).map (fun p => (c :: p.1, p.2))

/-- Parses one scalar Python literal: a single-quoted string, None, True,
False, or an unsigned integer. Anything else is treated as unparsable, in
which case the caller keeps the original string (matching the except branch
of safe_extract in the source). -/
def parsePyAtom (l0 : List Char) : Option Json :=
  let t := trimChars l0
  if 2 ≤ t.length && (t.head? == some aposChar) && (t.getLast? == some aposChar) then
    some (Json.str (String.mk (t.drop 1).dropLast))
  else if t == "None".data then some Json.null
  else if t == "True".data then some (Json.bool true)
  else if t == "False".data then some (Json.bool false)
  else if !t.isEmpty && t.all Char.isDigit then
    some (Json.num (Int.ofNat (t.foldl (fun acc c => acc * 10 + (c.toNat - 48)) 0)))
  else none

/-- Parses one key: value entry of a flat Python dict literal. -/
def parsePyEntry (l : List Char) : Option (String × Json) :=
  match splitFirst ':' l with
  | some (k, v) =>
    match parsePyAtom k, parsePyAtom v with
    | some (Json.str key), some jv => some (key, jv)
    | _, _ => none
  | none => none

/-- Partial model of ast.literal_eval restricted to flat dict literals with
quoted string keys and scalar values (no nesting, no escapes, no commas or
colons inside quotes). Every other input is reported as a parse failure,
which safe_extract treats exactly like the ValueError/SyntaxError branch of
the source: the original string is kept. -/
def parsePyDictLit (s : String) : Option (List (String × Json)) :=
  let d := s.data
  if (d.head? == some lbraceChar) && (d.getLast? == some rbraceChar) then
    let inner := (d.drop 1).dropLast
    if (trimChars inner).isEmpty then some []
    else (splitCharAux ',' [] inner).mapM parsePyEntry
  else none

/-- Embeds safe_extract of _extract_value_from_dicts_in_columns: non-strings
pass through, strings are stripped, dict-looking strings are parsed and
replaced by their value field when present, and parse failures keep the
stripped string. -/
def safe_extract (cell : Json) : Json :=
  match cell with
  | .str x0 =>
    let x := pyStrip x0
    if (x.data.head? == some lbraceChar) && (x.data.getLast? == some rbraceChar) then
      match parsePyDictLit x with
      | some fs =>
        match lookupField fs "value" with
        | some v => v
        | none => .str x
      | none => .str x
    else .str x
  | j => j

/-- Pandas DataFrame, modelled as a column-name list plus rows aligned with
it. Row order and column order are the orders in which the source builds
them. -/
structure DataFrame where
  columns : List String
  rows : List (List Json)

/-- Pandas df.empty: true when either axis has length zero. -/
def DataFrame.isEmpty (df : DataFrame) : Bool := df.rows.isEmpty || df.columns.isEmpty

/-- Index of a column name, first occurrence. -/
def idxOfCol : List String → String → Option Nat
  | [], _ => none
  | c :: cs, n => if c = n then some 0 else (idxOfCol cs n).map (fun i => i + 1)

/-- Pandas df[name]: the cell list of the (first) column with that name. -/
def DataFrame.getCol (df : DataFrame) (name : String) : List Json :=
  match idxOfCol df.columns name with
  | some i => df.rows.map (fun r => (r.get? i).getD Json.null)
  | none => []

/-- Pandas df.drop(columns=names). -/
def DataFrame.dropCols (df : DataFrame) (names : List String) : DataFrame :=
  { columns := df.columns.filter (fun c => !(names.contains c)),
    rows := df.rows.map (fun r =>
      ((df.columns.zip r).filter (fun p => !(names.contains p.1))).map (fun p => p.2)) }

/-- Pandas pd.concat(axis=1) of two frames with equal row counts. -/
def DataFrame.concatCols (a b : DataFrame) : DataFrame :=
  { columns := a.columns ++ b.columns,
    rows := List.zipWith (fun r1 r2 => r1 ++ r2) a.rows b.rows }

/-- Applies a function to every cell, as the column-wise assignments of the
two scalar-normalization stages do (the source iterates df.columns; with the
usual unique labels this transforms every cell exactly once). -/
def DataFrame.mapCells (df : DataFrame) (f : Json → Json) : DataFrame :=
  { columns := df.columns, rows := df.rows.map (fun r => r.map f) }

/-- Keys of a record, in dict order; non-dicts contribute none. -/
def recordKeys : Json → List String
  | .obj fs => fs.map (fun p => p.1)
  | _ => []

/-- Cell of a record under a column: dict lookup, NaN (null) when the key is
absent or the record is not a dict. -/
def recordLookup (r : Json) (c : String) : Json :=
  match r with
  | .obj fs => (lookupField fs c).getD Json.null
  | _ => Json.null

/-- Keeps the first occurrence of every element (helper for column-set union
in first-appearance order, and for drop_duplicates). -/
def keepFirstAux (seen : List String) : List String → List String
  | [] => []
  | t :: ts => if seen.contains t then keepFirstAux seen ts else t :: keepFirstAux (t :: seen) ts

/-- First-occurrence deduplication of a string list. -/
def keepFirst (l : List String) : List String := keepFirstAux [] l

/-- Pandas pd.DataFrame(list-of-dicts), also the stacking done by
df[col].apply(pd.Series): columns are the union of the record keys in
first-appearance order; absent keys become NaN. Non-dict records are
modelled as all-NaN rows (the positional-column quirk of pd.Series on a
scalar is outside the scope of the claims). -/
def mkDataFrameOfRecords (records : List Json) : DataFrame :=
  let cols := keepFirst (listJoin (records.map recordKeys))
  { columns := cols, rows := records.map (fun r => cols.map (fun c => recordLookup r c)) }

/-- Embeds StopMonitoringDataFormatter._extract_StopMonitoringDelivery:
descend Siri / ServiceDelivery / StopMonitoringDelivery with dict defaults;
the paired string is the log message the source computes. -/
def extract_StopMonitoringDelivery (response : Json) : Except String (Json × String) := do
  let a ← dictGet response "Siri" (Json.obj [])
  let b ← dictGet a "ServiceDelivery" (Json.obj [])
  let c ← dictGet b "StopMonitoringDelivery" (Json.arr [])
  pure (c, if jsonTruthy c then "Succeeded" else "Empty response")

/-- Embeds _extract_MonitoredStopVisit_entries: non-lists give an empty
frame; otherwise every entry contributes its MonitoredStopVisit items
(iterating a non-iterable raises, caught nowhere, as in the source). -/
def extract_MonitoredStopVisit_entries (response : Json) :
    Except String (DataFrame × String) :=
  match response with
  | .arr entries => do
    let lists ← entries.mapM (fun e => do
      let vs ← dictGet e "MonitoredStopVisit" (Json.arr [])
      pyIter vs)
    let results := listJoin lists
    pure (mkDataFrameOfRecords results,
      if !results.isEmpty then "Succeeded" else "Empty response")
  | _ => .ok (⟨[], []⟩, "Empty response")

/-- Embeds _expand_MonitoredVehicleJourney: requires the column, expands its
dict cells into new columns placed after the remaining ones. -/
def expand_MonitoredVehicleJourney (df : DataFrame) : DataFrame × String :=
  if df.columns.contains "MonitoredVehicleJourney" then
    let expanded := mkDataFrameOfRecords (df.getCol "MonitoredVehicleJourney")
    let out := DataFrame.concatCols (df.dropCols ["MonitoredVehicleJourney"]) expanded
    (out, if !out.isEmpty then "Succeeded" else "Empty response")
  else
    (⟨[], []⟩, "Missing column (MonitoredVehicleJourney)")

/-- Embeds _expand_FramedVehicleJourneyRef_and_MonitoredCall: requires all
three columns, else an empty frame with the missing names in the message. -/
def expand_FramedVehicleJourneyRef_and_MonitoredCall (df : DataFrame) :
    DataFrame × String :=
  let targets := ["FramedVehicleJourneyRef", "TrainNumbers", "MonitoredCall"]
  let missing_columns := targets.filter (fun c => !(df.columns.contains c))
  if missing_columns.isEmpty then
    let expandeds := targets.map (fun t => mkDataFrameOfRecords (df.getCol t))
    let out := expandeds.foldl DataFrame.concatCols (df.dropCols targets)
    (out, if !out.isEmpty then "Succeeded" else "Empty response")
  else
    (⟨[], []⟩, "Missing column (" ++ joinWith ", " missing_columns ++ ")")

/-- Embeds _strip_brackets_and_nans_from_columns: astype(str), strip the
bracket anchors, remove standalone nan words, on every cell. -/
def strip_brackets_and_nans_from_columns (df : DataFrame) : DataFrame × String :=
  let out := df.mapCells (fun cell => Json.str (removeNanWords (stripBracketsStr (pyStr cell))))
  (out, if !out.isEmpty then "Succeeded" else "Empty response")

/-- Embeds _extract_value_from_dicts_in_columns via safe_extract. -/
def extract_value_from_dicts_in_columns (df : DataFrame) : DataFrame × String :=
  let out := df.mapCells safe_extract
  (out, if !out.isEmpty then "Succeeded" else "Empty response")

/-- Embeds StopMonitoringDataFormatter.format_response: the first two stages
can raise (propagated, as catch_exceptions logs and re-raises); an empty
frame after the two expansion stages returns early; otherwise the scalar
normalization runs and column names are lowercased. The station name only
feeds log messages. -/
def format_response (station_name : String) (response : Json) :
    Except String DataFrame := do
  let (delivery, _log1) ← extract_StopMonitoringDelivery response
  let (df1, _log2) ← extract_MonitoredStopVisit_entries delivery
  let (df2, _log3) := expand_MonitoredVehicleJourney df1
  let (df3, _log4) := expand_FramedVehicleJourneyRef_and_MonitoredCall df2
  if df3.isEmpty then
    pure df3
  else
    let (df4, _log5) := strip_brackets_and_nans_from_columns df3
    let (df5, _log6) := extract_value_from_dicts_in_columns df4
    pure { df5 with columns := df5.columns.map strLower }

/-- Decimal digit character (used by the model of Python str on ints). -/
def digitChar : Nat → Char
  | 0 => '0'
  | 1 => '1'
  | 2 => '2'
  | 3 => '3'
  | 4 => '4'
  | 5 => '5'
  | 6 => '6'
  | 7 => '7'
  | 8 => '8'
  | _ => '9'

/-- Decimal digits of a natural number, most significant first. The fuel
argument (any bound above the value) keeps the recursion structural, so the
function reduces inside the kernel. -/
def natDigitsAux : Nat → Nat → List Char
  | 0, _ => []
  | fuel + 1, n =>
    if n < 10 then [digitChar n]
    else natDigitsAux fuel (n / 10) ++ [digitChar (n % 10)]

/-- Decimal digits of a natural number, most significant first. -/
def natDigits (n : Nat) : List Char := natDigitsAux (n + 1) n

/-- Python str(n) for a nonnegative count. -/
def pyStrNat (n : Nat) : String := String.mk (natDigits n)

/-- Python int(s) for the nonnegative decimal strings this pipeline feeds it
(a non-numeric string raises ValueError at the caller). -/
def pyParseNat (s : String) : Option Nat :=
  if !s.data.isEmpty && s.data.all Char.isDigit then
    some (s.data.foldl (fun acc c => acc * 10 + (c.toNat - 48)) 0)
  else none

/-- Round-half-even integer division, the rounding Python round and string
formatting apply to an exact value. -/
def roundHalfEvenDiv (num den : Nat) : Nat :=
  if den = 0 then 0
  else
    let q := num / den
    let r := num % den
    if 2 * r < den then q
    else if den < 2 * r then q + 1
    else if q % 2 = 0 then q else q + 1

/-- Renders value / total * 100 with two decimals and a percent sign, as the
f-string with format .2f in _compute_ratio does. CPython computes the
quotient in binary floating point; the model rounds the exact rational in
hundredth-of-a-percent units, which agrees on every value evaluated below. -/
def formatPct (value total : Nat) : String :=
  let h := roundHalfEvenDiv (value * 10000) total
  pyStrNat (h / 100) ++ "." ++
    (if h % 100 < 10 then "0" ++ pyStrNat (h % 100) else pyStrNat (h % 100)) ++ "%"

/-- Embeds StopMonitoringDataRetrieverResult._compute_ratio. The guard tests
Python truthiness of the total_processed STRING, so the 0.00-percent branch
is taken only for the empty string; the string 0 is truthy and flows into
integer division, which raises ZeroDivisionError. -/
def compute_ratio (total_processed : String) (value : String) : Except String String :=
  if total_processed ≠ "" then
    match pyParseNat value, pyParseNat total_processed with
    | some v, some t =>
      if t = 0 then .error "ZeroDivisionError" else .ok (formatPct v t)
    | _, _ => .error "ValueError"
  else .ok "0.00%"

/-- Embeds StopMonitoringDataRetrieverResult._get_status, comparing the
formatted success_rate string against the literals 100-percent and
0.00-percent exactly as the source writes them. -/
def get_status (success_rate : String) : String :=
  if success_rate = "100%" then "SUCCESS"
  else if success_rate ≠ "0.00%" then "PARTIAL_SUCCESS"
  else "FAILED"

/-- Embeds the StopMonitoringDataRetrieverResult dataclass: all fields are
strings, as in the source. -/
structure StopMonitoringDataRetrieverResult where
  execution_time : String
  processed_file_path : String
  total_processed : String
  total_successful : String
  total_failed : String
  success_rate : String
  failure_rate : String
  status : String

/-- Embeds constructing StopMonitoringDataRetrieverResult, whose post-init
hook derives the two rates and the status and can therefore raise. -/
def mkStopMonitoringDataRetrieverResult (execution_time processed_file_path
    total_processed total_successful total_failed : String) :
    Except String StopMonitoringDataRetrieverResult := do
  let success_rate ← compute_ratio total_processed total_successful
  let failure_rate ← compute_ratio total_processed total_failed
  pure { execution_time := execution_time, processed_file_path := processed_file_path,
         total_processed := total_processed, total_successful := total_successful,
         total_failed := total_failed, success_rate := success_rate,
         failure_rate := failure_rate, status := get_status success_rate }

/-- Embeds StopMonitoringDataRetriever._process_response: format the
response; a non-empty frame counts as processed. The _save_processed_df
write is modelled as an always-succeeding sink. -/
def process_response (stop_point_name : String) (response : Json) :
    Except String Bool := do
  let df ← format_response stop_point_name response
  pure (!df.isEmpty)

/-- Outcome of one submitted task: the fetch result awaited by
future.result, then the processing of the response. -/
def taskOutcome (fetch : Nat → String → Except String Json)
    (stop : Nat × String) : Except String Bool := do
  let response ← fetch stop.1 stop.2
  process_response stop.2 response

/-- Embeds the as_completed loop of execute_retrieval_workflow: each task is
awaited; any exception is logged with the stop name and then re-raised,
aborting the loop; otherwise the processed counter and (when rows were
produced) the success counter advance. Completion order is the list order;
the aggregate counters are order-independent. -/
def retrieval_loop (fetch : Nat → String → Except String Json) :
    List (Nat × String) → Nat → Nat → Except String (Nat × Nat)
  | [], total_processed, total_successful => .ok (total_processed, total_successful)
  | stop :: rest, total_processed, total_successful =>
    match fetch stop.1 stop.2 with
    | .error e => .error e
    | .ok response =>
      match process_response stop.2 response with
      | .error e => .error e
      | .ok is_processed =>
        retrieval_loop fetch rest (total_processed + 1)
          (total_successful + if is_processed then 1 else 0)

/-- Embeds StopMonitoringDataRetriever.execute_retrieval_workflow over an
already-selected stop list: run the loop, then build the result record from
the stringified counters, with total_failed the difference. The elapsed
wall-clock time and the output path are inputs of the model. -/
def execute_retrieval_workflow (stops : List (Nat × String))
    (fetch : Nat → String → Except String Json) (elapsed path : String) :
    Except String StopMonitoringDataRetrieverResult := do
  let counts ← retrieval_loop fetch stops 0 0
  mkStopMonitoringDataRetrieverResult elapsed path (pyStrNat counts.1)
    (pyStrNat counts.2) (pyStrNat (counts.1 - counts.2))

/-- Row of the stop referential (columns arrid, arrname, arrtown of the
referential DataFrame). -/
structure StopRecord where
  arrid : Nat
  arrname : String
  arrtown : String
deriving DecidableEq

/-- Model of thefuzz utils.full_process, applied by process.extractOne to
the query and every choice: non-alphanumeric characters become spaces, the
result is lowercased and trimmed (ASCII model of the regex). -/
def full_process (s : String) : String :=
  pyStrip (strLower (String.mk (s.data.map (fun c => if c.isAlphanum then c else ' '))))

/-- Length of a longest common subsequence of two character lists. -/
def lcsLength : List Char → List Char → Nat
  | [], _ => 0
  | _ :: _, [] => 0
  | a :: as, b :: bs =>
    if a = b then lcsLength as bs + 1
    else max (lcsLength (a :: as) bs) (lcsLength as (b :: bs))
termination_by l1 l2 => l1.length + l2.length
decreasing_by all_goals (simp only [List.length_cons]; omega)

/-- Model of thefuzz fuzz.ratio: the rapidfuzz normalized indel similarity
200 * lcs / (len1 + len2), rounded half-even to an integer percentage; two
empty strings score 100. -/
def fuzz_ratio (a b : String) : Nat :=
  if a.data.length + b.data.length = 0 then 100
  else roundHalfEvenDiv (200 * lcsLength a.data b.data) (a.data.length + b.data.length)

/-- First pair with maximal score (earlier candidates win ties), the max
taken inside thefuzz process.extractOne. -/
def pickBest : List (String × Nat) → Option (String × Nat)
  | [] => none
  | x :: xs =>
    match pickBest xs with
    | none => some x
    | some y => if y.2 > x.2 then some y else some x

/-- Model of thefuzz process.extractOne(query, choices, scorer,
score_cutoff): both sides pass through full_process, every choice is scored,
and the best (choice, score) is returned when its score reaches the cutoff.
The scorer is a parameter so theorems can quantify over the metric. -/
def process_extractOne (scorer : String → String → Nat) (query : String)
    (choices : List String) (score_cutoff : Nat) : Option (String × Nat) :=
  match pickBest (choices.map (fun c => (c, scorer (full_process query) (full_process c)))) with
  | some best => if score_cutoff ≤ best.2 then some best else none
  | none => none

/-- Embeds StopReferentialManager._match_to_existing_towns: extractOne with
fuzz.ratio and cutoff 70; a missing or falsy match yields None (the source
logs and returns None, it never raises). -/
def match_to_existing_towns (scorer : String → String → Nat) (town : String)
    (towns : List String) : Option String :=
  match process_extractOne scorer town towns 70 with
  | some ms => if ms.1 ≠ "" then some ms.1 else none
  | none => none

/-- Distinct town names of the referential in first-appearance order
(drop_duplicates on the arrtown column). -/
def referentialTowns (df : List StopRecord) : List String :=
  keepFirst (df.map (fun r => r.arrtown))

/-- Loop body of _filter_referential for one requested town: equality filter
on a successful match, otherwise the case-sensitive startswith fallback. -/
def filterOneTown (scorer : String → String → Nat) (town : String)
    (df : List StopRecord) : List StopRecord :=
  match match_to_existing_towns scorer town (referentialTowns df) with
  | some matching_town => df.filter (fun r => r.arrtown == matching_town)
  | none => df.filter (fun r => pyStartswith r.arrtown town)

/-- Concatenation of the per-town selections, in request order, without
deduplication (the filtered_dfs append plus pd.concat of the source). -/
def concatSelections (scorer : String → String → Nat) (df : List StopRecord) :
    List String → List StopRecord
  | [] => []
  | t :: ts => filterOneTown scorer t df ++ concatSelections scorer df ts

/-- Embeds _filter_referential: on an empty requested-town list pd.concat
raises and the except branch returns None implicitly; otherwise the
concatenated selection is returned (the empty-result branch returns a fresh
empty frame, the same value as the empty concatenation). -/
def filter_referential (scorer : String → String → Nat)
    (selected_towns : List String) (df : List StopRecord) :
    Option (List StopRecord) :=
  match selected_towns with
  | [] => none
  | _ => some (concatSelections scorer df selected_towns)

/-- Embeds StopReferentialManager.iter_stops: yields (arrid, arrname) over
the filtered referential; an empty filter result or an upstream failure
yields no stops (the generator logs and ends). -/
def iter_stops (scorer : String → String → Nat) (selected_towns : List String)
    (df : List StopRecord) : List (Nat × String) :=
  match filter_referential scorer selected_towns df with
  | some filtered =>
    if filtered.isEmpty then [] else filtered.map (fun r => (r.arrid, r.arrname))
  | none => []

/-- Composition of stop selection and the retrieval workflow, as the API
entry point wires StopReferentialManager into StopMonitoringDataRetriever. -/
def execute_retrieval_workflow_for_towns (scorer : String → String → Nat)
    (selected_towns : List String) (catalog : List StopRecord)
    (fetch : Nat → String → Except String Json) (elapsed path : String) :
    Except String StopMonitoringDataRetrieverResult :=
  execute_retrieval_workflow (iter_stops scorer selected_towns catalog) fetch elapsed path

/-- Embeds StopMonitoringConfig._get_selected_towns: a falsy (empty) input
gives None, otherwise the comma-split, stripped pieces. -/
def get_selected_towns (selected_towns : String) : Option (List String) :=
  if selected_towns ≠ "" then some ((pySplitComma selected_towns).map pyStrip)
  else none

/-- Python truthiness of the parsed town value as validate_required_vars
sees it (None and the empty list are falsy). -/
def townsTruthy : Option (List String) → Bool
  | none => false
  | some l => !l.isEmpty

/-- Embeds validate_required_vars over (name, truthiness) pairs. -/
def validate_required_vars (required_vars : List (String × Bool)) : Except String Unit :=
  let missing_vars := (required_vars.filter (fun kv => !kv.2)).map (fun kv => kv.1)
  if missing_vars.isEmpty then .ok ()
  else .error ("Missing required variable(s) : " ++ joinWith ", " missing_vars)

/-- Embeds validate_positive_value for MAX_WORKERS (the isinstance check is
carried by the Int type of the model). -/
def validate_positive_value (name : String) (value : Int) : Except String Unit :=
  if value ≤ 0 then
    .error ("Invalid value for " ++ name ++ "=" ++ toString value ++ ". Must be greater than 0")
  else .ok ()

/-- Embeds StopMonitoringConfig._validate_config on the validated settings. -/
def validate_config (max_workers : Int) (idf_mobilite_api_key : String)
    (selected_towns : Option (List String)) : Except String Unit := do
  validate_positive_value "MAX_WORKERS" max_workers
  validate_required_vars
    [("IDF_MOBILITE_API_KEY", idf_mobilite_api_key != ""),
     ("SELECTED_TOWNS", townsTruthy selected_towns)]

/-- Validation outcome of constructing StopMonitoringConfig from a raw
comma-separated town string (the parse of _get_selected_towns followed by
_validate_config). -/
def configValidationOutcome (max_workers : Int) (api_key : String)
    (selected_towns_raw : String) : Except String Unit :=
  validate_config max_workers api_key (get_selected_towns selected_towns_raw)

/-- State of the functools lru_cache(maxsize=100) wrapped around
_fetch_stop_point_data: entries most-recent-first, plus the log of network
calls in order. -/
structure LruState where
  entries : List ((Nat × String) × Json)
  calls : List (Nat × String)

/-- Embeds one call of the cached _fetch_stop_point_data. The cache key is
the argument pair (stop_point_id, station_name). A hit moves the entry to
the front and performs no network call; a miss calls the network (modelled
as a function of the arguments and of how many calls happened before, so
distinct calls may observe distinct responses), inserts the entry and
evicts the least recent entry beyond 100. -/
def fetch_stop_point_data (net : Nat → String → Nat → Json)
    (stop_point_id : Nat) (station_name : String) (st : LruState) :
    Json × LruState :=
  let k := (stop_point_id, station_name)
  match st.entries.find? (fun e => decide (e.1 = k)) with
  | some e =>
    (e.2, { entries := e :: st.entries.filter (fun x => !(decide (x.1 = k))), calls := st.calls })
  | none =>
    let v := net stop_point_id station_name st.calls.length
    (v, { entries := List.take 100 ((k, v) :: st.entries), calls := st.calls ++ [k] })

/-- Runs the cached fetch over a list of requested stops, collecting the
responses in order. -/
def run_cached_fetch (net : Nat → String → Nat → Json) :
    List (Nat × String) → LruState → List Json × LruState
  | [], st => ([], st)
  | (i, n) :: ks, st =>
    let r := fetch_stop_point_data net i n st
    let rest := run_cached_fetch net ks r.2
    (r.1 :: rest.1, rest.2)

/-- Boolean success of a task outcome (ok with a non-empty formatted frame). -/
def succBool (fetch : Nat → String → Except String Json) (t : Nat × String) : Bool :=
  match taskOutcome fetch t with
  | .ok true => true
  | _ => false

/-- Boolean test that an outcome is not an exception. -/
def exceptIsOk (x : Except String Bool) : Bool :=
  match x with
  | .ok _ => true
  | .error _ => false

/-- Fetch sequence with 102 distinct stops followed by a repeat of the first
one: more distinct keys than the cache bound of 100. -/
def c7_keys : List (Nat × String) :=
  ((List.range 102).map (fun i => (i, "S"))) ++ [(0, "S")]

/-- Network model whose response carries the index of the network call, so
two distinct calls are observably different. -/
def c7_net : Nat → String → Nat → Json := fun _ _ ncalls => Json.num ncalls

/-! Helper lemmas about the decimal string conversions. -/

theorem natDigitsAux_ne_nil : ∀ (fuel n : Nat), n < fuel →
    natDigitsAux fuel n ≠ [] := by
  intro fuel
  induction fuel with
  | zero => intro n h; omega
  | succ f ih =>
    intro n h
    unfold natDigitsAux
    split
    · simp
    · simp

theorem natDigits_ne_nil (n : Nat) : natDigits n ≠ [] :=
  natDigitsAux_ne_nil (n + 1) n (by omega)

theorem digitChar_isDigit : ∀ n, n < 10 → (digitChar n).isDigit = true := by decide

theorem digitChar_toNat : ∀ n, n < 10 → (digitChar n).toNat - 48 = n := by decide

theorem natDigitsAux_all_digit : ∀ (fuel n : Nat), n < fuel →
    (natDigitsAux fuel n).all Char.isDigit = true := by
  intro fuel
  induction fuel with
  | zero => intro n h; omega
  | succ f ih =>
    intro n h
    unfold natDigitsAux
    split
    · next h10 => simp [digitChar_isDigit n h10]
    · next h10 =>
      have hlt : n / 10 < f := by omega
      have hrec := ih (n / 10) hlt
      simp only [List.all_append, hrec, List.all_cons, List.all_nil,
        digitChar_isDigit (n % 10) (Nat.mod_lt _ (by omega)), Bool.and_self]

theorem natDigits_all_digit (n : Nat) : (natDigits n).all Char.isDigit = true :=
  natDigitsAux_all_digit (n + 1) n (by omega)

theorem foldl_natDigitsAux : ∀ (fuel n : Nat), n < fuel → ∀ acc : Nat,
    (natDigitsAux fuel n).foldl (fun a c => a * 10 + (c.toNat - 48)) acc =
      acc * 10 ^ (natDigitsAux fuel n).length + n := by
  intro fuel
  induction fuel with
  | zero => intro n h; omega
  | succ f ih =>
    intro n h acc
    unfold natDigitsAux
    split
    · next h10 =>
      simp [List.foldl, digitChar_toNat n h10]
    · next h10 =>
      have hlt : n / 10 < f := by omega
      rw [List.foldl_append, ih (n / 10) hlt acc]
      simp only [List.foldl, List.length_append, List.length_singleton,
        digitChar_toNat (n % 10) (Nat.mod_lt _ (by omega)), pow_succ]
      ring_nf
      omega

theorem pyParseNat_pyStrNat (n : Nat) : pyParseNat (pyStrNat n) = some n := by
  unfold pyParseNat pyStrNat
  have h1 : natDigits n ≠ [] := natDigits_ne_nil n
  have h2 := natDigits_all_digit n
  have hne : (String.mk (natDigits n)).data.isEmpty = false := by
    cases hd : natDigits n with
    | nil => exact absurd hd h1
    | cons a l => simp [hd]
  rw [show (String.mk (natDigits n)).data = natDigits n from rfl] at *
  rw [hne, h2]
  simp only [Bool.not_false, Bool.true_and, if_true]
  rw [show natDigits n = natDigitsAux (n + 1) n from rfl,
    foldl_natDigitsAux (n + 1) n (by omega) 0]
  simp

theorem pyStrNat_ne_empty (n : Nat) : pyStrNat n ≠ "" := by
  unfold pyStrNat
  intro h
  have : natDigits n = [] := by
    have := congrArg String.data h
    simpa using this
  exact natDigits_ne_nil n this

/-! Helper lemma for the successful construction of the result record from
stringified counters. -/

theorem mkResult_of_counts (e pa : String) (p s f : Nat) (hp : p ≠ 0) :
    mkStopMonitoringDataRetrieverResult e pa (pyStrNat p) (pyStrNat s) (pyStrNat f) =
      .ok { execution_time := e, processed_file_path := pa,
            total_processed := pyStrNat p, total_successful := pyStrNat s,
            total_failed := pyStrNat f, success_rate := formatPct s p,
            failure_rate := formatPct f p, status := get_status (formatPct s p) } := by
  unfold mkStopMonitoringDataRetrieverResult compute_ratio
  simp [pyStrNat_ne_empty p, pyParseNat_pyStrNat, hp, Bind.bind, Except.bind, pure,
    Except.pure]

/-! Helper lemmas about the orchestrator loop. -/

theorem taskOutcome_of_parts (fetch : Nat → String → Except String Json)
    (t : Nat × String) (resp : Json) (b : Bool) (hf : fetch t.1 t.2 = .ok resp)
    (hp : process_response t.2 resp = .ok b) : taskOutcome fetch t = .ok b := by
  unfold taskOutcome
  rw [hf]
  simpa [Bind.bind, Except.bind] using hp

theorem retrieval_loop_all_ok (fetch : Nat → String → Except String Json) :
    ∀ (stops : List (Nat × String)) (p s : Nat),
      (∀ t ∈ stops, exceptIsOk (taskOutcome fetch t) = true) →
      retrieval_loop fetch stops p s =
        .ok (p + stops.length, s + stops.countP (succBool fetch)) := by
  intro stops
  induction stops with
  | nil => intro p s _; simp [retrieval_loop]
  | cons hd tl ih =>
    intro p s h
    have hhd := h hd (List.mem_cons_self hd tl)
    cases hf : fetch hd.1 hd.2 with
    | error e =>
      exfalso
      unfold exceptIsOk taskOutcome at hhd
      rw [hf] at hhd
      simp [Bind.bind, Except.bind] at hhd
    | ok resp =>
      cases hp : process_response hd.2 resp with
      | error e =>
        exfalso
        unfold exceptIsOk taskOutcome at hhd
        rw [hf] at hhd
        simp [Bind.bind, Except.bind, hp] at hhd
      | ok b =>
        have htask := taskOutcome_of_parts fetch hd resp b hf hp
        have hsucc : succBool fetch hd = b := by
          unfold succBool
          rw [htask]
          cases b <;> rfl
        have hrest : ∀ t ∈ tl, exceptIsOk (taskOutcome fetch t) = true :=
          fun t ht => h t (List.mem_cons_of_mem hd ht)
        simp only [retrieval_loop, hf, hp]
        rw [ih (p + 1) (s + if b then 1 else 0) hrest]
        have hlen : p + 1 + tl.length = p + (hd :: tl).length := by
          simp [List.length_cons]; omega
        have hcnt : (s + if b then 1 else 0) + tl.countP (succBool fetch) =
            s + (hd :: tl).countP (succBool fetch) := by
          rw [List.countP_cons, hsucc]
          cases b <;> simp <;> omega
        rw [hlen, hcnt]

theorem retrieval_loop_err (fetch : Nat → String → Except String Json) :
    ∀ (stops : List (Nat × String)) (p s : Nat),
      (∃ t ∈ stops, exceptIsOk (taskOutcome fetch t) = false) →
      ∃ e, retrieval_loop fetch stops p s = .error e := by
  intro stops
  induction stops with
  | nil => intro p s h; simp at h
  | cons hd tl ih =>
    intro p s h
    cases hf : fetch hd.1 hd.2 with
    | error e => exact ⟨e, by simp [retrieval_loop, hf]⟩
    | ok resp =>
      cases hp : process_response hd.2 resp with
      | error e => exact ⟨e, by simp [retrieval_loop, hf, hp]⟩
      | ok b =>
        have htask := taskOutcome_of_parts fetch hd resp b hf hp
        obtain ⟨t, ht, hbad⟩ := h
        rcases List.mem_cons.mp ht with rfl | htl
        · exfalso
          rw [htask] at hbad
          simp [exceptIsOk] at hbad
        · obtain ⟨e, he⟩ := ih (p + 1) (s + if b then 1 else 0) ⟨t, htl, hbad⟩
          exact ⟨e, by simp [retrieval_loop, hf, hp, he]⟩

/-! Helper lemmas about the fuzzy matcher. -/

theorem pickBest_eq_none : ∀ (l : List (String × Nat)), pickBest l = none → l = [] := by
  intro l
  cases l with
  | nil => intro _; rfl
  | cons x xs =>
    intro h
    unfold pickBest at h
    cases hx : pickBest xs <;> rw [hx] at h <;> dsimp only at h
    · exact absurd h (by simp)
    · split at h <;> simp at h

theorem pickBest_mem : ∀ (l : List (String × Nat)) (b : String × Nat),
    pickBest l = some b → b ∈ l := by
  intro l
  induction l with
  | nil => intro b h; simp [pickBest] at h
  | cons x xs ih =>
    intro b h
    unfold pickBest at h
    cases hx : pickBest xs with
    | none => rw [hx] at h; dsimp only at h; simp at h; simp [h]
    | some y =>
      rw [hx] at h
      dsimp only at h
      by_cases hgt : y.2 > x.2
      · rw [if_pos hgt] at h
        injection h with hyb
        subst hyb
        exact List.mem_cons_of_mem x (ih _ hx)
      · rw [if_neg hgt] at h
        injection h with hxb
        subst hxb
        exact List.mem_cons_self _ _

theorem pickBest_max : ∀ (l : List (String × Nat)) (b : String × Nat),
    pickBest l = some b → ∀ x ∈ l, x.2 ≤ b.2 := by
  intro l
  induction l with
  | nil => intro b h; simp [pickBest] at h
  | cons x xs ih =>
    intro b h z hz
    unfold pickBest at h
    cases hx : pickBest xs with
    | none =>
      rw [hx] at h
      dsimp only at h
      injection h with hxb
      subst hxb
      have hxs := pickBest_eq_none xs hx
      subst hxs
      rcases List.mem_cons.mp hz with rfl | hzin
      · exact le_refl _
      · simp at hzin
    | some y =>
      rw [hx] at h
      dsimp only at h
      by_cases hgt : y.2 > x.2
      · rw [if_pos hgt] at h
        injection h with hyb
        subst hyb
        rcases List.mem_cons.mp hz with rfl | hzin
        · omega
        · exact ih _ hx z hzin
      · rw [if_neg hgt] at h
        injection h with hxb
        subst hxb
        rcases List.mem_cons.mp hz with rfl | hzin
        · exact le_refl _
        · exact le_trans (ih y hx z hzin) (by omega)

theorem extractOne_none_of_lt (scorer : String → String → Nat) (query : String)
    (choices : List String) (cutoff : Nat)
    (h : ∀ c ∈ choices, scorer (full_process query) (full_process c) < cutoff) :
    process_extractOne scorer query choices cutoff = none := by
  unfold process_extractOne
  cases hp : pickBest (choices.map fun c => (c, scorer (full_process query) (full_process c))) with
  | none => rfl
  | some b =>
    have hb := pickBest_mem _ b hp
    obtain ⟨c, hc, hcb⟩ := List.mem_map.mp hb
    have : b.2 < cutoff := by rw [← hcb]; exact h c hc
    simp [Nat.not_le.mpr this]

/-! Helper lemmas about the bounded fetch cache. -/

theorem take_eq_of_le {α : Type} : ∀ (l : List α) (n : Nat), l.length ≤ n →
    List.take n l = l := by
  intro l
  induction l with
  | nil => intro n _; simp
  | cons x xs ih =>
    intro n h
    cases n with
    | zero => simp at h
    | succ m => simp [List.take, ih m (by simpa using h)]

theorem run_cached_fetch_invariant (net : Nat → String → Nat → Json)
    (total : Finset (Nat × String)) (htot : total.card ≤ 100) :
    ∀ (keys : List (Nat × String)) (st : LruState)
      (valOf : Nat × String → Json) (seen : List (Nat × String)),
      (∀ k ∈ keys, k ∈ total) →
      (∀ k ∈ seen, k ∈ total) →
      (∀ e ∈ st.entries, e.2 = valOf e.1 ∧ e.1 ∈ seen) →
      (∀ k ∈ seen, (k, valOf k) ∈ st.entries) →
      (st.entries.map Prod.fst).Nodup →
      st.calls.Nodup →
      (∀ k, k ∈ st.calls ↔ k ∈ seen) →
      ∃ valOf2 : Nat × String → Json,
        (∀ k ∈ seen, valOf2 k = valOf k) ∧
        (run_cached_fetch net keys st).1 = keys.map valOf2 ∧
        (run_cached_fetch net keys st).2.calls.Nodup ∧
        (∀ k, k ∈ (run_cached_fetch net keys st).2.calls ↔ (k ∈ seen ∨ k ∈ keys)) := by
  intro keys
  induction keys with
  | nil =>
    intro st valOf seen _ _ _ _ _ hcnd hcm
    refine ⟨valOf, fun k _ => rfl, rfl, hcnd, ?_⟩
    intro k
    simpa [run_cached_fetch] using hcm k
  | cons kh ks ih =>
    intro st valOf seen hkeys hseen hst1 hst2 hst3 hcnd hcm
    obtain ⟨i, n⟩ := kh
    cases hfind : st.entries.find? (fun e => decide (e.1 = (i, n))) with
    | some e =>
      have he_mem : e ∈ st.entries := List.mem_of_find?_eq_some hfind
      have he_key : e.1 = (i, n) := by
        have h2 := List.find?_some hfind
        exact of_decide_eq_true h2
      have he_val : e.2 = valOf e.1 := (hst1 e he_mem).1
      have he_seen : e.1 ∈ seen := (hst1 e he_mem).2
      have hkseen : (i, n) ∈ seen := he_key ▸ he_seen
      have hstep : run_cached_fetch net ((i, n) :: ks) st =
          (e.2 :: (run_cached_fetch net ks
              ⟨e :: st.entries.filter (fun x => !(decide (x.1 = (i, n)))), st.calls⟩).1,
            (run_cached_fetch net ks
              ⟨e :: st.entries.filter (fun x => !(decide (x.1 = (i, n)))), st.calls⟩).2) := by
        simp only [run_cached_fetch, fetch_stop_point_data]
        rw [hfind]
      have hseen1 : ∀ x ∈ (i, n) :: seen, x ∈ total := by
        intro x hx
        rcases List.mem_cons.mp hx with rfl | h2
        · exact hkeys _ (List.mem_cons_self _ _)
        · exact hseen _ h2
      have hst1a : ∀ x ∈ (⟨e :: st.entries.filter (fun x => !(decide (x.1 = (i, n)))),
          st.calls⟩ : LruState).entries, x.2 = valOf x.1 ∧ x.1 ∈ (i, n) :: seen := by
        intro x hx
        rcases List.mem_cons.mp hx with rfl | h2
        · exact ⟨he_val, List.mem_cons_of_mem _ he_seen⟩
        · have hxe := List.mem_of_mem_filter h2
          exact ⟨(hst1 x hxe).1, List.mem_cons_of_mem _ (hst1 x hxe).2⟩
      have hst2a : ∀ x ∈ (i, n) :: seen, (x, valOf x) ∈
          (⟨e :: st.entries.filter (fun x => !(decide (x.1 = (i, n)))),
            st.calls⟩ : LruState).entries := by
        intro x hx
        have hehd : e = ((i, n), valOf (i, n)) := by
          have h2 : e = (e.1, e.2) := rfl
          rw [h2, he_val, he_key]
        rcases List.mem_cons.mp hx with rfl | h2
        · rw [← hehd]
          exact List.mem_cons_self _ _
        · by_cases hxk : x = (i, n)
          · subst hxk
            rw [← hehd]
            exact List.mem_cons_self _ _
          · refine List.mem_cons_of_mem _ (List.mem_filter.mpr ⟨hst2 x h2, ?_⟩)
            simp [hxk]
      have hst3a : ((⟨e :: st.entries.filter (fun x => !(decide (x.1 = (i, n)))),
          st.calls⟩ : LruState).entries.map Prod.fst).Nodup := by
        simp only [List.map_cons]
        refine List.nodup_cons.mpr ⟨?_, ?_⟩
        · intro hmem2
          obtain ⟨x, hx, hxe⟩ := List.mem_map.mp hmem2
          have hpred := (List.mem_filter.mp hx).2
          rw [hxe, he_key] at hpred
          simp at hpred
        · exact List.Nodup.sublist
            (List.Sublist.map Prod.fst (List.filter_sublist _)) hst3
      have hcm1 : ∀ x, x ∈ (⟨e :: st.entries.filter
          (fun x => !(decide (x.1 = (i, n)))), st.calls⟩ : LruState).calls ↔
          x ∈ (i, n) :: seen := by
        intro x
        rw [show (⟨e :: st.entries.filter (fun x => !(decide (x.1 = (i, n)))),
          st.calls⟩ : LruState).calls = st.calls from rfl, hcm x]
        constructor
        · exact fun h2 => List.mem_cons_of_mem _ h2
        · intro h2
          rcases List.mem_cons.mp h2 with rfl | h3
          · exact hkseen
          · exact h3
      obtain ⟨v2, hagree, houts, hnd, hmem⟩ :=
        ih ⟨e :: st.entries.filter (fun x => !(decide (x.1 = (i, n)))), st.calls⟩
          valOf ((i, n) :: seen)
          (fun x hx => hkeys x (List.mem_cons_of_mem _ hx))
          hseen1 hst1a hst2a hst3a hcnd hcm1
      refine ⟨v2, ?_, ?_, ?_, ?_⟩
      · exact fun x hx => hagree x (List.mem_cons_of_mem _ hx)
      · rw [hstep]
        simp only [List.map_cons]
        rw [houts]
        have : e.2 = v2 (i, n) := by
          rw [he_val, he_key, ← hagree (i, n) (List.mem_cons_self _ _)]
        rw [this]
      · rw [hstep]
        exact hnd
      · intro x
        rw [hstep]
        rw [hmem x]
        have himp : x = (i, n) → x ∈ seen := fun hx => hx ▸ hkseen
        simp only [List.mem_cons]
        tauto
    | none =>
      have hnotin : ∀ x ∈ st.entries, x.1 ≠ (i, n) := by
        intro x hx
        have h2 := List.find?_eq_none.mp hfind x hx
        simpa using h2
      have hknotseen : (i, n) ∉ seen := by
        intro hk
        exact hnotin _ (hst2 _ hk) rfl
      have hknotcalls : (i, n) ∉ st.calls := fun hc => hknotseen ((hcm _).mp hc)
      have hsubKC : ∀ x ∈ st.entries.map Prod.fst, x ∈ st.calls := by
        intro x hx
        obtain ⟨y, hy, rfl⟩ := List.mem_map.mp hx
        exact (hcm _).mpr (hst1 y hy).2
      have hcallsTotal : ∀ x ∈ st.calls, x ∈ total :=
        fun x hx => hseen x ((hcm x).mp hx)
      have hcard1 : st.calls.toFinset.card + 1 ≤ 100 := by
        have hsub : insert (i, n) st.calls.toFinset ⊆ total := by
          intro x hx
          rcases Finset.mem_insert.mp hx with rfl | hx2
          · exact hkeys _ (List.mem_cons_self _ _)
          · exact hcallsTotal x (List.mem_toFinset.mp hx2)
        have hnotf : (i, n) ∉ st.calls.toFinset := by simpa using hknotcalls
        have h3 := Finset.card_le_card hsub
        rw [Finset.card_insert_of_not_mem hnotf] at h3
        omega
      have hlenEnt : st.entries.length ≤ 99 := by
        have h1 : (st.entries.map Prod.fst).toFinset.card = st.entries.length := by
          rw [List.toFinset_card_of_nodup hst3, List.length_map]
        have h2 : (st.entries.map Prod.fst).toFinset ⊆ st.calls.toFinset := by
          intro x hx
          exact List.mem_toFinset.mpr (hsubKC x (List.mem_toFinset.mp hx))
        have h3 := Finset.card_le_card h2
        omega
      have htake : List.take 100 (((i, n), net i n st.calls.length) :: st.entries) =
          ((i, n), net i n st.calls.length) :: st.entries :=
        take_eq_of_le _ _ (by simp only [List.length_cons]; omega)
      have hstep : run_cached_fetch net ((i, n) :: ks) st =
          (net i n st.calls.length :: (run_cached_fetch net ks
              ⟨((i, n), net i n st.calls.length) :: st.entries,
                st.calls ++ [(i, n)]⟩).1,
            (run_cached_fetch net ks
              ⟨((i, n), net i n st.calls.length) :: st.entries,
                st.calls ++ [(i, n)]⟩).2) := by
        simp only [run_cached_fetch, fetch_stop_point_data]
        rw [hfind, htake]
      have hseen1 : ∀ x ∈ (i, n) :: seen, x ∈ total := by
        intro x hx
        rcases List.mem_cons.mp hx with rfl | h2
        · exact hkeys _ (List.mem_cons_self _ _)
        · exact hseen _ h2
      have hst1a : ∀ x ∈ (((i, n), net i n st.calls.length) :: st.entries),
          x.2 = (fun y => if y = (i, n) then net i n st.calls.length else valOf y) x.1 ∧
            x.1 ∈ (i, n) :: seen := by
        intro x hx
        rcases List.mem_cons.mp hx with rfl | h2
        · exact ⟨by simp, List.mem_cons_self _ _⟩
        · refine ⟨?_, List.mem_cons_of_mem _ (hst1 x h2).2⟩
          have hne := hnotin x h2
          simp only []
          rw [if_neg hne]
          exact (hst1 x h2).1
      have hst2a : ∀ x ∈ (i, n) :: seen,
          (x, (fun y => if y = (i, n) then net i n st.calls.length else valOf y) x) ∈
            (((i, n), net i n st.calls.length) :: st.entries) := by
        intro x hx
        rcases List.mem_cons.mp hx with rfl | h2
        · refine List.mem_cons.mpr (Or.inl ?_)
          simp
        · have hne : x ≠ (i, n) := fun hx2 => hknotseen (hx2 ▸ h2)
          refine List.mem_cons.mpr (Or.inr ?_)
          have hval : (fun y => if y = (i, n) then net i n st.calls.length else valOf y) x =
              valOf x := by simp [hne]
          rw [hval]
          exact hst2 x h2
      have hst3a : (((((i, n), net i n st.calls.length) :: st.entries)).map
          Prod.fst).Nodup := by
        simp only [List.map_cons]
        refine List.nodup_cons.mpr ⟨?_, hst3⟩
        intro hmem2
        obtain ⟨x, hx, hxe⟩ := List.mem_map.mp hmem2
        exact hnotin x hx hxe
      have hcnd1 : (st.calls ++ [(i, n)]).Nodup := by
        rw [List.nodup_append]
        refine ⟨hcnd, List.nodup_singleton _, ?_⟩
        intro x hx hx2
        rw [List.mem_singleton] at hx2
        subst hx2
        exact hknotcalls hx
      have hcm1 : ∀ x, x ∈ st.calls ++ [(i, n)] ↔ x ∈ (i, n) :: seen := by
        intro x
        rw [List.mem_append, List.mem_singleton, hcm x, List.mem_cons]
        tauto
      obtain ⟨v2, hagree, houts, hnd, hmem⟩ :=
        ih ⟨((i, n), net i n st.calls.length) :: st.entries, st.calls ++ [(i, n)]⟩
          (fun y => if y = (i, n) then net i n st.calls.length else valOf y)
          ((i, n) :: seen)
          (fun x hx => hkeys x (List.mem_cons_of_mem _ hx))
          hseen1 hst1a hst2a hst3a hcnd1 hcm1
      refine ⟨v2, ?_, ?_, ?_, ?_⟩
      · intro x hx
        have hne : x ≠ (i, n) := fun hx2 => hknotseen (hx2 ▸ hx)
        rw [hagree x (List.mem_cons_of_mem _ hx)]
        simp [hne]
      · rw [hstep]
        simp only [List.map_cons]
        rw [houts]
        have : net i n st.calls.length = v2 (i, n) := by
          rw [hagree (i, n) (List.mem_cons_self _ _)]
          simp
        rw [this]
      · rw [hstep]
        exact hnd
      · intro x
        rw [hstep]
        rw [hmem x]
        simp only [List.mem_cons]
        tauto

/-! Helper lemmas about strings, splitting and the town selection. -/

theorem splitCharAux_ne_nil (sep : Char) : ∀ (cs acc : List Char),
    splitCharAux sep acc cs ≠ [] := by
  intro cs
  induction cs with
  | nil => intro acc; simp [splitCharAux]
  | cons c cs2 ih =>
    intro acc
    unfold splitCharAux
    by_cases hc : c = sep
    · rw [if_pos hc]; simp
    · rw [if_neg hc]; exact ih _

theorem string_data_ne_nil {s : String} (h : s ≠ "") : s.data ≠ [] := by
  intro h2
  apply h
  cases s with
  | mk l =>
    simp only [String.data] at h2
    subst h2
    rfl

theorem list_ne_nil_isEmpty_false {α : Type} {l : List α} (h : l ≠ []) :
    l.isEmpty = false := by
  cases l with
  | nil => exact absurd rfl h
  | cons x xs => rfl

theorem fuzz_ratio_empty_left (b : String) (hb : b ≠ "") : fuzz_ratio "" b = 0 := by
  have hd : b.data ≠ [] := string_data_ne_nil hb
  have hlen : b.data.length ≠ 0 := fun h0 => hd (List.length_eq_zero.mp h0)
  unfold fuzz_ratio
  rw [if_neg (by simpa using hlen)]
  have hlcs : lcsLength ("" : String).data b.data = 0 := by
    rw [show ("" : String).data = [] from rfl]
    cases b.data <;> simp [lcsLength]
  rw [hlcs]
  unfold roundHalfEvenDiv
  rw [if_neg (by simpa using hlen)]
  simp only [Nat.mul_zero, Nat.zero_div, Nat.zero_mod]
  rw [if_pos (by omega)]

theorem mem_concatSelections (scorer : String → String → Nat)
    (df : List StopRecord) : ∀ (ts : List String) (t : String), t ∈ ts →
    ∀ r ∈ filterOneTown scorer t df, r ∈ concatSelections scorer df ts := by
  intro ts
  induction ts with
  | nil => intro t ht; simp at ht
  | cons t2 ts2 ih =>
    intro t ht r hr
    rcases List.mem_cons.mp ht with rfl | ht2
    · exact List.mem_append.mpr (Or.inl hr)
    · exact List.mem_append.mpr (Or.inr (ih t ht2 r hr))

/-!
Claim theorems. Each claim of the specification is settled below against the
embedded definitions.
-/

/-- C1 (counterexample): a run with one failing fetch and one succeeding
sibling does not return a RetrievalResult at all: the per-task handler logs
and then re-raises, so the first task exception aborts the whole workflow.
This contradicts the claim that a per-task failure is counted as failed and
does not abort the run. -/
theorem c1_counterexample :
    execute_retrieval_workflow [(1, "stopA"), (2, "stopB")]
      (fun i _ => if i = 1 then Except.error "TransportError"
        else Except.ok (Json.obj []))
      "0.10" "data/stop_monitoring.csv" = Except.error "TransportError" := rfl

/-- C1 (amended): every per-task failure is caught and logged with the stop
name but then re-raised, aborting the run, and it is never counted; a
RetrievalResult is returned exactly when no task raises, and in that case it
reflects all stops: totalProcessed is the number of selected stops,
totalSuccessful counts the stops whose formatted frame was non-empty, and
totalFailed is the difference. -/
theorem c1_amended (stops : List (Nat × String))
    (fetch : Nat → String → Except String Json) (elapsed path : String)
    (hne : stops ≠ []) :
    ((∀ t ∈ stops, exceptIsOk (taskOutcome fetch t) = true) →
      execute_retrieval_workflow stops fetch elapsed path =
        .ok { execution_time := elapsed, processed_file_path := path,
              total_processed := pyStrNat stops.length,
              total_successful := pyStrNat (stops.countP (succBool fetch)),
              total_failed :=
                pyStrNat (stops.length - stops.countP (succBool fetch)),
              success_rate := formatPct (stops.countP (succBool fetch)) stops.length,
              failure_rate :=
                formatPct (stops.length - stops.countP (succBool fetch)) stops.length,
              status :=
                get_status (formatPct (stops.countP (succBool fetch)) stops.length) }) ∧
    ((∃ t ∈ stops, exceptIsOk (taskOutcome fetch t) = false) →
      ∀ r, execute_retrieval_workflow stops fetch elapsed path ≠ .ok r) := by
  constructor
  · intro hall
    unfold execute_retrieval_workflow
    rw [retrieval_loop_all_ok fetch stops 0 0 hall]
    simp only [Nat.zero_add, Bind.bind, Except.bind]
    exact mkResult_of_counts elapsed path _ _ _
      (fun h0 => hne (List.length_eq_zero.mp h0))
  · intro hbad r
    obtain ⟨e, he⟩ := retrieval_loop_err fetch stops 0 0 hbad
    unfold execute_retrieval_workflow
    rw [he]
    simp [Bind.bind, Except.bind]

/-- C1 (witness): a one-stop run whose fetch succeeds and whose response
formats to an empty frame returns a result with one processed, zero
successful, one failed stop. -/
theorem c1_amended_witness :
    execute_retrieval_workflow [(1, "stopA")] (fun _ _ => Except.ok (Json.obj []))
      "0.10" "data/stop_monitoring.csv" =
      .ok { execution_time := "0.10",
            processed_file_path := "data/stop_monitoring.csv",
            total_processed := "1", total_successful := "0", total_failed := "1",
            success_rate := "0.00%", failure_rate := "100.00%",
            status := "FAILED" } := by
  have h := (c1_amended [(1, "stopA")] (fun _ _ => Except.ok (Json.obj []))
    "0.10" "data/stop_monitoring.csv" (by decide)).1 (by decide)
  exact h

/-- C2 (code bug): _compute_ratio renders a full success as the string
100.00 percent, while _get_status compares against the literal 100 percent,
so a run in which every stop succeeds is labelled PARTIAL_SUCCESS instead of
SUCCESS. Evaluation of the embedded code at totalProcessed = 4,
totalSuccessful = 4. -/
theorem c2_full_success_labelled_partial :
    (mkStopMonitoringDataRetrieverResult "1.00" "data/stop_monitoring.csv"
        "4" "4" "0").map (fun r => (r.success_rate, r.status)) =
      Except.ok ("100.00%", "PARTIAL_SUCCESS") := rfl

/-- C3 (code bug): with totalProcessed = 0 the guard of _compute_ratio tests
the truthiness of the string 0, which is truthy, so the division by
int(total_processed) raises ZeroDivisionError instead of producing the
0.00-percent rates the claim describes; the result record is never
constructed. -/
theorem c3_zero_processed_raises :
    mkStopMonitoringDataRetrieverResult "0.10" "data/stop_monitoring.csv"
      "0" "0" "0" = Except.error "ZeroDivisionError" := rfl

/-- C4: when the stop selection is empty, the workflow submits zero fetch
tasks (the result is the same for every fetch function, which the universal
quantification over fetch expresses) and terminates with a raised error, an
outcome distinguishable from a silent empty success. -/
theorem c4_empty_selection_aborts (scorer : String → String → Nat)
    (selected_towns : List String) (catalog : List StopRecord)
    (h : filter_referential scorer selected_towns catalog = some []) :
    iter_stops scorer selected_towns catalog = [] ∧
    ∀ fetch elapsed path,
      execute_retrieval_workflow_for_towns scorer selected_towns catalog
        fetch elapsed path = Except.error "ZeroDivisionError" := by
  have hiter : iter_stops scorer selected_towns catalog = [] := by
    unfold iter_stops
    rw [h]
    rfl
  refine ⟨hiter, ?_⟩
  intro fetch elapsed path
  unfold execute_retrieval_workflow_for_towns
  rw [hiter]
  rfl

/-- C4 (witness): requesting a town absent from the catalog, with no prefix
match, selects nothing, performs no fetch, and the run raises. -/
theorem c4_empty_selection_aborts_witness :
    iter_stops (fun _ _ => 0) ["Nowhereville"] [⟨1, "stopA", "Paris"⟩] = [] ∧
    execute_retrieval_workflow_for_towns (fun _ _ => 0) ["Nowhereville"]
      [⟨1, "stopA", "Paris"⟩] (fun _ _ => Except.error "TransportError")
      "0.10" "data/stop_monitoring.csv" = Except.error "ZeroDivisionError" := by
  have h := c4_empty_selection_aborts (fun _ _ => 0) ["Nowhereville"]
    [⟨1, "stopA", "Paris"⟩] (by rfl)
  exact ⟨h.1, h.2 _ _ _⟩

/-- C5 (counterexample): a response in which the delivery path is missing
because an intermediate value is not an object makes normalization raise
(AttributeError on the int 5), contradicting the claim that a missing path
never raises. -/
theorem c5_counterexample :
    format_response "stopA" (Json.obj [("Siri", Json.num 5)]) =
      Except.error "AttributeError" := rfl

/-- C5 (amended): whenever the delivery extraction itself succeeds and
yields an empty or non-list delivery (in particular when the keys of the
path root.Siri.ServiceDelivery.StopMonitoringDelivery are absent from their
objects, so the chained dict defaults produce the empty list), normalization
returns the empty frame and raises nothing. -/
theorem c5_amended (name : String) (response : Json) (v : Json) (msg : String)
    (h : extract_StopMonitoringDelivery response = .ok (v, msg))
    (hv : v = Json.arr [] ∨ ∀ xs, v ≠ Json.arr xs) :
    format_response name response = .ok ⟨[], []⟩ := by
  unfold format_response
  rw [h]
  rcases hv with rfl | hne
  · rfl
  · cases v with
    | arr xs => exact absurd rfl (hne xs)
    | null => rfl
    | bool b => rfl
    | num m => rfl
    | str s => rfl
    | obj fs => rfl

/-- C5 (witness): the empty-object response, where every key of the path is
absent, normalizes to the empty frame without error. -/
theorem c5_amended_witness :
    format_response "stopA" (Json.obj []) = Except.ok ⟨[], []⟩ :=
  c5_amended "stopA" (Json.obj []) (Json.arr []) "Empty response" rfl (Or.inl rfl)

/-- C6: the Town Resolver accepts only a best-scoring candidate whose score
reaches 70 (any accepted match is a member of the catalog towns, scores at
least 70, and no candidate scores higher); when every candidate scores below
70 it signals no match rather than an error; and on no match the selector
filters exactly the catalog stops whose town starts with the requested
string, case-sensitively as supplied. -/
theorem c6_resolver_threshold_and_fallback (scorer : String → String → Nat)
    (town : String) (catalog : List StopRecord) :
    (∀ m, match_to_existing_towns scorer town (referentialTowns catalog) = some m →
      m ∈ referentialTowns catalog ∧
      70 ≤ scorer (full_process town) (full_process m) ∧
      ∀ c ∈ referentialTowns catalog,
        scorer (full_process town) (full_process c) ≤
          scorer (full_process town) (full_process m)) ∧
    ((∀ c ∈ referentialTowns catalog,
        scorer (full_process town) (full_process c) < 70) →
      match_to_existing_towns scorer town (referentialTowns catalog) = none) ∧
    (match_to_existing_towns scorer town (referentialTowns catalog) = none →
      filterOneTown scorer town catalog =
        catalog.filter (fun r => pyStartswith r.arrtown town)) := by
  refine ⟨?_, ?_, ?_⟩
  · intro m hm
    unfold match_to_existing_towns at hm
    cases he : process_extractOne scorer town (referentialTowns catalog) 70 with
    | none =>
      rw [he] at hm
      exact absurd hm (by simp)
    | some ms =>
      rw [he] at hm
      dsimp only at hm
      by_cases hms : ms.1 ≠ ""
      · rw [if_pos hms] at hm
        injection hm with hm2
        subst hm2
        unfold process_extractOne at he
        cases hp : pickBest ((referentialTowns catalog).map
            fun c => (c, scorer (full_process town) (full_process c))) with
        | none =>
          rw [hp] at he
          exact absurd he (by simp)
        | some b =>
          rw [hp] at he
          dsimp only at he
          by_cases h70 : 70 ≤ b.2
          · rw [if_pos h70] at he
            injection he with he2
            subst he2
            obtain ⟨c, hc, hcb⟩ := List.mem_map.mp (pickBest_mem _ _ hp)
            subst hcb
            refine ⟨hc, h70, ?_⟩
            intro c2 hc2
            exact pickBest_max _ _ hp
              (c2, scorer (full_process town) (full_process c2))
              (List.mem_map.mpr ⟨c2, hc2, rfl⟩)
          · rw [if_neg h70] at he
            exact absurd he (by simp)
      · rw [if_neg hms] at hm
        exact absurd hm (by simp)
  · intro hlt
    unfold match_to_existing_towns
    rw [extractOne_none_of_lt scorer town _ 70 hlt]
  · intro hm
    unfold filterOneTown
    rw [hm]

/-- C6 (witness): with a constant zero scorer the requested town matches
nothing and the selector is exactly the startswith filter. -/
theorem c6_resolver_witness :
    match_to_existing_towns (fun _ _ => 0) "Nowhereville"
      (referentialTowns [⟨1, "stopA", "Paris"⟩]) = none ∧
    filterOneTown (fun _ _ => 0) "Nowhereville" [⟨1, "stopA", "Paris"⟩] =
      List.filter (fun r => pyStartswith r.arrtown "Nowhereville")
        [⟨1, "stopA", "Paris"⟩] := by
  have h := c6_resolver_threshold_and_fallback (fun _ _ => 0) "Nowhereville"
    [⟨1, "stopA", "Paris"⟩]
  have hnone := h.2.1 (by decide)
  exact ⟨hnone, h.2.2 hnone⟩

set_option maxRecDepth 8000 in
/-- C7 (counterexample): with 102 distinct stops the bounded lru_cache
evicts the first entry, so repeating the first stop triggers a second
network call (the call log holds the key twice) and the repeated fetch
returns the response of call 102, not the response of the first call. This
contradicts the claim that every repeated fetch for a stop id triggers at
most one network call and returns the first response. -/
theorem c7_counterexample :
    (run_cached_fetch c7_net c7_keys ⟨[], []⟩).2.calls.countP
        (fun k => decide (k = (0, "S"))) = 2 ∧
    (run_cached_fetch c7_net c7_keys ⟨[], []⟩).1.head? = some (Json.num 0) ∧
    (run_cached_fetch c7_net c7_keys ⟨[], []⟩).1.getLast? = some (Json.num 102) :=
  ⟨by decide, rfl, rfl⟩

/-- C7 (amended): fetches are memoized by the (stop id, station name)
argument pair in an LRU cache bounded at 100 entries; in every run touching
at most 100 distinct keys, each key triggers exactly one network call (the
call log lists every requested key exactly once) and all fetches of a key
return that single response (the outputs factor through a function of the
key). -/
theorem c7_amended (net : Nat → String → Nat → Json)
    (keys : List (Nat × String)) (hcard : keys.toFinset.card ≤ 100) :
    (∃ f : Nat × String → Json,
      (run_cached_fetch net keys ⟨[], []⟩).1 = keys.map f) ∧
    (run_cached_fetch net keys ⟨[], []⟩).2.calls.Nodup ∧
    (∀ k, k ∈ (run_cached_fetch net keys ⟨[], []⟩).2.calls ↔ k ∈ keys) := by
  obtain ⟨v2, _, houts, hnd, hmem⟩ :=
    run_cached_fetch_invariant net keys.toFinset hcard keys ⟨[], []⟩
      (fun _ => Json.null) []
      (fun k hk => List.mem_toFinset.mpr hk)
      (by simp) (by simp) (by simp) (by simp) (by simp) (by simp)
  refine ⟨⟨v2, houts⟩, hnd, ?_⟩
  intro k
  rw [hmem k]
  simp

/-- C7 (amended, witness): a selection repeating one stop makes exactly one
network call and both fetches return the same response. -/
theorem c7_amended_witness :
    (∃ f : Nat × String → Json,
      (run_cached_fetch c7_net [(1, "stopA"), (1, "stopA")] ⟨[], []⟩).1 =
        [(1, "stopA"), (1, "stopA")].map f) ∧
    (run_cached_fetch c7_net [(1, "stopA"), (1, "stopA")] ⟨[], []⟩).2.calls.Nodup ∧
    (∀ k, k ∈ (run_cached_fetch c7_net [(1, "stopA"), (1, "stopA")]
        ⟨[], []⟩).2.calls ↔ k ∈ [(1, "stopA"), (1, "stopA")]) :=
  c7_amended c7_net [(1, "stopA"), (1, "stopA")] (by decide)

/-- C9 (counterexample): the whitespace-only input parses to the singleton
list holding the empty string, whose every entry is empty after trimming,
yet configuration validation accepts it, contradicting the claim that every
town list empty after trimming is rejected. -/
theorem c9_counterexample :
    get_selected_towns " " = some [""] ∧
    configValidationOutcome 4 "k" " " = Except.ok () := ⟨rfl, rfl⟩

/-- C9 (amended): configuration validation rejects exactly the empty
(missing) selected-towns input string: any non-empty raw input, even one
whose entries are all empty after trimming, parses to a non-empty list and
passes the towns check; and the selection processes the requested entries
independently in order, so duplicate names each contribute their own pass. -/
theorem c9_amended (raw : String) (mw : Int) (key : String)
    (hmw : 0 < mw) (hkey : key ≠ "") :
    ((∃ e, configValidationOutcome mw key raw = .error e) ↔ raw = "") ∧
    ∀ (scorer : String → String → Nat) (df : List StopRecord)
      (ts1 ts2 : List String),
      concatSelections scorer df (ts1 ++ ts2) =
        concatSelections scorer df ts1 ++ concatSelections scorer df ts2 := by
  have h1 : ¬ mw ≤ 0 := by omega
  have h2 : (key != "") = true := bne_iff_ne.mpr hkey
  constructor
  · constructor
    · rintro ⟨e, he⟩
      by_contra hraw
      have hnnil : (pySplitComma raw).map pyStrip ≠ [] := by
        intro h0
        have := List.map_eq_nil.mp h0
        unfold pySplitComma at this
        exact splitCharAux_ne_nil ',' raw.data [] (List.map_eq_nil.mp this)
      have htt : townsTruthy (get_selected_towns raw) = true := by
        unfold get_selected_towns townsTruthy
        rw [if_pos hraw]
        simp [list_ne_nil_isEmpty_false hnnil]
      unfold configValidationOutcome validate_config validate_positive_value
        validate_required_vars at he
      rw [htt] at he
      simp [h1, h2, Bind.bind, Except.bind] at he
    · intro hraw
      subst hraw
      refine ⟨"Missing required variable(s) : SELECTED_TOWNS", ?_⟩
      unfold configValidationOutcome validate_config validate_positive_value
        validate_required_vars get_selected_towns townsTruthy
      simp [h1, h2, Bind.bind, Except.bind]
      rfl
  · intro scorer df ts1 ts2
    induction ts1 with
    | nil => simp [concatSelections]
    | cons t ts ih => simp [concatSelections, ih, List.append_assoc]

/-- C9 (amended, witness): a duplicated town list passes validation. -/
theorem c9_amended_witness :
    ¬(∃ e, configValidationOutcome 4 "k" "Paris,Paris" = Except.error e) := by
  intro hex
  have h := (c9_amended "Paris,Paris" 4 "k" (by omega) (by decide)).1.mp hex
  exact absurd h (by decide)

/-- C10: an empty-string entry in the requested town list passes validation
(the parsed list is truthy), its fuzzy match scores 0 against every
candidate with a non-empty processed form and therefore below the 70
cutoff, the resolver signals no match, the startswith fallback with the
empty prefix selects the entire catalog, and consequently every catalog stop
is fetched by the run. -/
theorem c10_empty_town_selects_all (raw : String) (mw : Int) (key : String)
    (catalog : List StopRecord) (ts : List String)
    (hmw : 0 < mw) (hkey : key ≠ "")
    (hts : get_selected_towns raw = some ts) (hempty : "" ∈ ts)
    (htowns : ∀ t ∈ referentialTowns catalog, full_process t ≠ "") :
    validate_config mw key (some ts) = Except.ok () ∧
    (∀ c ∈ referentialTowns catalog,
      fuzz_ratio (full_process "") (full_process c) < 70) ∧
    match_to_existing_towns fuzz_ratio "" (referentialTowns catalog) = none ∧
    filterOneTown fuzz_ratio "" catalog = catalog ∧
    ∀ r ∈ catalog, (r.arrid, r.arrname) ∈ iter_stops fuzz_ratio ts catalog := by
  have h1 : ¬ mw ≤ 0 := by omega
  have h2 : (key != "") = true := bne_iff_ne.mpr hkey
  have htsne : ts ≠ [] := List.ne_nil_of_mem hempty
  have hscores : ∀ c ∈ referentialTowns catalog,
      fuzz_ratio (full_process "") (full_process c) < 70 := by
    intro c hc
    rw [show full_process "" = "" from rfl,
      fuzz_ratio_empty_left (full_process c) (htowns c hc)]
    omega
  have hnone : match_to_existing_towns fuzz_ratio ""
      (referentialTowns catalog) = none := by
    unfold match_to_existing_towns
    rw [extractOne_none_of_lt fuzz_ratio "" _ 70 hscores]
  have hall : filterOneTown fuzz_ratio "" catalog = catalog := by
    unfold filterOneTown
    rw [hnone]
    apply List.filter_eq_self.mpr
    intro r _
    unfold pyStartswith
    rw [show ("" : String).data = [] from rfl]
    cases r.arrtown.data <;> rfl
  refine ⟨?_, hscores, hnone, hall, ?_⟩
  · unfold validate_config validate_positive_value validate_required_vars
      townsTruthy
    simp [h1, h2, list_ne_nil_isEmpty_false htsne, Bind.bind, Except.bind]
  · intro r hr
    have hmemsel : r ∈ concatSelections fuzz_ratio catalog ts :=
      mem_concatSelections fuzz_ratio catalog ts "" hempty r (hall.symm ▸ hr)
    have hfil : filter_referential fuzz_ratio ts catalog =
        some (concatSelections fuzz_ratio catalog ts) := by
      cases ts with
      | nil => exact absurd rfl htsne
      | cons t ts2 => rfl
    have hie : (concatSelections fuzz_ratio catalog ts).isEmpty = false :=
      list_ne_nil_isEmpty_false (List.ne_nil_of_mem hmemsel)
    unfold iter_stops
    rw [hfil]
    dsimp only
    simp only [hie, Bool.false_eq_true, if_false]
    exact List.mem_map.mpr ⟨r, hmemsel, rfl⟩

/-- C10 (witness): the raw input with a stray leading comma segment parses
to a list containing the empty entry; the run over a one-stop catalog passes
validation and fetches the catalog stop (twice, once per matching pass). -/
theorem c10_empty_town_selects_all_witness :
    validate_config 4 "k" (some ["", "Paris"]) = Except.ok () ∧
    ∀ r ∈ [(⟨1, "stopA", "Paris"⟩ : StopRecord)],
      (r.arrid, r.arrname) ∈ iter_stops fuzz_ratio ["", "Paris"]
        [⟨1, "stopA", "Paris"⟩] := by
  have h := c10_empty_town_selects_all " ,Paris" 4 "k" [⟨1, "stopA", "Paris"⟩]
    ["", "Paris"] (by omega) (by decide) (by rfl) (by decide) (by decide)
  exact ⟨h.1, h.2.2.2.2⟩

end StopMonitoring
